import Mathlib

/-!
Verification of the toy M:N scheduler (GopherCon Africa 2025 session code).

The definitions below are a shallow embedding of the final iteration of the
scheduler, `src/unnamed/part_003` (the same types and functions appear, in
earlier form, in `src/toysched/step3/toysched3.go` and
`src/toysched/step5/toysched5.go`).  Gs, Ps and Ms are records; pointers are
modelled by integer identities, with the scheduler carrying the store of live
G objects; channels are modelled explicitly (a buffered channel by its buffer
content, the one-shot `blockChan` by an open/closed flag together with the
Go channel rules: a send on a closed channel panics, a close of a closed
channel panics, a receive with no pending send blocks).  Time is measured in
milliseconds as a natural number.  The `fmt.Printf` calls of the source are
modelled by an event log.
-/

set_option maxHeartbeats 1000000

namespace ToySched

/-- Events corresponding to the `fmt.Printf` calls of `scheduleOnce`
(src/unnamed/part_003): grabbing a P from the pool, stealing a G from the
global queue, parking a P, starting a G, finishing a G, and the
blocked-handoff message. -/
inductive LogEvent
  | grabbed (pid : Nat)
  | stole (gid : Nat) (pid : Nat)
  | parked (pid : Nat)
  | started (gid : Nat)
  | finished (gid : Nat)
  | blockedHandoff (gid : Nat) (pid : Nat)
deriving DecidableEq, Repr

/-- A goroutine record, from `type G struct` (src/unnamed/part_003 lines
10-22).  `FuncPanics` abstracts the behaviour of the work routine `Func`
(whether running it raises a panic); `funcCalls` counts how many times
`Func` has been invoked; `hasBlockChan` models `blockChan != nil` and
`chanClosed` whether `close(blockChan)` has run.  `Status` is the
string-typed status field of the source. -/
structure G where
  ID : Nat
  FuncPanics : Bool
  Status : String
  hasBlockChan : Bool
  chanClosed : Bool
  funcCalls : Nat
deriving DecidableEq, Repr

/-- A processor record, from `type P struct` (src/unnamed/part_003 lines
38-46): the local run queue holds G identities (pointers in the source), and
`NumG` is the separately maintained count. -/
structure P where
  ID : Nat
  RunQ : List Nat
  NumG : Nat
deriving DecidableEq, Repr

/-- A machine (worker) record, from `type M struct` (src/unnamed/part_003
lines 50-62): the optionally bound P, the optionally current G, and the
cooldown marker `parkTime` (`none` models the zero `time.Time{}`). -/
structure M where
  ID : Nat
  P : Option Nat
  G : Option Nat
  parkTime : Option Nat
deriving DecidableEq, Repr

/-- Scheduler state, from `type Scheduler struct` (src/unnamed/part_003 lines
64-77).  `availPs` is the buffer content of the central `chan *P` pool, in
FIFO order.  `gs` is the store of live G objects (the model of the heap the
source's `*G` pointers point into), and `log` records the printed lifecycle
events. -/
structure Scheduler where
  gs : List G
  Ps : List P
  Ms : List M
  nextGID : Nat
  globalQ : List Nat
  availPs : List Nat
  log : List LogEvent
deriving DecidableEq, Repr

/-- Update every P record carrying identity `pid` (the source mutates the one
object behind the pointer; identities are unique in every state built by the
scheduler). -/
def updP (ps : List P) (pid : Nat) (f : P → P) : List P :=
  ps.map (fun p => if p.ID = pid then f p else p)

/-- Update every G record carrying identity `gid`. -/
def updG (gs : List G) (gid : Nat) (f : G → G) : List G :=
  gs.map (fun g => if g.ID = gid then f g else g)

/-- Look up a P by identity. -/
def findP (ps : List P) (pid : Nat) : Option P :=
  ps.find? (fun p => p.ID == pid)

/-- Look up a G by identity. -/
def findG (gs : List G) (gid : Nat) : Option G :=
  gs.find? (fun g => g.ID == gid)

/-- Status of a G in a scheduler state. -/
def statusOf (s : Scheduler) (gid : Nat) : Option String :=
  (findG s.gs gid).map G.Status

/-- Outcome of executing `G.Run`: normal return with the updated G, a panic
escaping `Run` (there is no `recover` anywhere in the source, so a panic in
`Func` or in the channel cleanup propagates to the caller), or a wait on
`blockChan` that never ends because no signal is ever delivered. -/
inductive RunOutcome
  | ok (g : G)
  | panicked (msg : String) (g : G)
  | blockedForever (g : G)
deriving DecidableEq, Repr

/-- Models `func (g *G) Run()` (src/unnamed/part_003 lines 24-35):
`g.Func()` runs first (modelled by bumping `funcCalls`, and panicking when
the routine panics — uncaught, since the source has no `recover`);
then, if `blockChan` is non-nil, `Run` executes the bare receive
`<-g.blockChan` followed by `close(g.blockChan)`.  Go channel rules applied:
a receive on a closed channel returns immediately, a receive on an open
channel completes only if a signal is delivered (`sig`), and a close of an
already closed channel panics.  Finally `g.Status = "done"`. -/
def GRun (g : G) (sig : Bool) : RunOutcome :=
  let g1 : G := { g with funcCalls := g.funcCalls + 1 }
  if g1.FuncPanics then .panicked "panic in g.Func" g1
  else if g1.hasBlockChan then
    if g1.chanClosed then .panicked "close of closed channel" g1
    else if sig then .ok { g1 with Status := "done", chanClosed := true }
    else .blockedForever g1
  else .ok { g1 with Status := "done" }

/-- Result of a send on an unbuffered Go channel such as `blockChan`. -/
inductive SendResult
  | delivered
  | blocksForever
  | panicsClosed
deriving DecidableEq, Repr

/-- Semantics of `ch <- struct{}{}` on an unbuffered channel (as in
`g2.blockChan <- struct{}{}`, src/unnamed/part_003 line 305): sending on a
closed channel panics; sending with no receiver waiting blocks the sender;
otherwise the value is handed to the waiting receiver. -/
def chanSend (closed : Bool) (receiverWaiting : Bool) : SendResult :=
  if closed then .panicsClosed
  else if receiverWaiting then .delivered
  else .blocksForever

/-- State of the worker stuck inside the receive `<-g.blockChan`. -/
inductive WaitState
  | waiting
  | resumed
deriving DecidableEq, Repr

/-- One tick of the bare receive `<-g.blockChan` (src/unnamed/part_003 line
29): the receive has no timeout or `select` branch, so the only transition
out of `waiting` is a delivered signal. -/
def waitStep (signalNow : Bool) : WaitState → WaitState
  | .waiting => if signalNow then .resumed else .waiting
  | .resumed => .resumed

/-- The wait state after `n` ticks given which ticks deliver a signal. -/
def waitAfter (signals : Nat → Bool) : Nat → WaitState
  | 0 => .waiting
  | n + 1 => waitStep (signals n) (waitAfter signals n)

/-- Models `Scheduler.NewG` (src/unnamed/part_003 lines 80-94): under the
scheduler mutex (the whole allocation is a single atomic step here) the next
id is taken and incremented, and a runnable G is returned, carrying a block
channel exactly when `block` is true.  The new G is also recorded in `gs`,
the model of the heap of live G objects. -/
def NewG (s : Scheduler) (fPanics : Bool) (block : Bool) : G × Scheduler :=
  let g : G := { ID := s.nextGID, FuncPanics := fPanics, Status := "runnable",
                 hasBlockChan := block, chanClosed := false, funcCalls := 0 }
  (g, { s with nextGID := s.nextGID + 1, gs := s.gs ++ [g] })

/-- Models `Scheduler.AddP` (src/unnamed/part_003 lines 97-105): a new P with
an empty run queue and `NumG = 0` is appended to the scheduler. -/
def AddP (s : Scheduler) (id : Nat) : Scheduler :=
  { s with Ps := s.Ps ++ [{ ID := id, RunQ := [], NumG := 0 }] }

/-- The overflow threshold of `Enqueue`, the literal `5` of
`if p.NumG > 5` (src/unnamed/part_003 line 151). -/
def overflowThreshold : Nat := 5

/-- Models `Scheduler.Enqueue` (src/unnamed/part_003 lines 150-161): if the
target P already holds more than `overflowThreshold` Gs the G is redirected
to the global queue, otherwise it is appended to the tail of the local run
queue, `NumG` is incremented and the G is marked runnable. -/
def Enqueue (s : Scheduler) (pid gid : Nat) : Scheduler :=
  match findP s.Ps pid with
  | none => s
  | some p =>
    if p.NumG > overflowThreshold then
      { s with globalQ := s.globalQ ++ [gid] }
    else
      let app : P → P := fun q => { q with RunQ := q.RunQ ++ [gid], NumG := q.NumG + 1 }
      { s with Ps := updP s.Ps pid app,
               gs := updG s.gs gid (fun g => { g with Status := "runnable" }) }

/-- Enqueue a whole list of Gs to one P, in order. -/
def submitAll (s : Scheduler) (pid : Nat) (gids : List Nat) : Scheduler :=
  gids.foldl (fun st gid => Enqueue st pid gid) s

/-- Result of one scheduling iteration: normal completion, a panic escaping
the iteration (killing the worker goroutine), or the worker stuck forever
inside `g.Run` waiting on a signal that never comes.  Every constructor
carries the scheduler state at that point. -/
inductive SchedResult
  | ok (s : Scheduler)
  | panicked (msg : String) (s : Scheduler)
  | blockedForever (s : Scheduler)
deriving DecidableEq, Repr

/-- The scheduler state carried by a result. -/
def SchedResult.state : SchedResult → Scheduler
  | .ok s => s
  | .panicked _ s => s
  | .blockedForever s => s

/-- Whether the iteration completed normally. -/
def SchedResult.isOk : SchedResult → Bool
  | .ok _ => true
  | _ => false

/-- The run phase of `M.scheduleOnce` (src/unnamed/part_003 lines 208-230),
entered with worker `mIdx` (record `m`) bound to P `pid`: pop the head of the
run queue (`m.P.RunQ[0]` panics on an empty slice, hence the index panic in
the impossible empty case), decrement `NumG`, bind the G as current, mark it
running, execute `g.Run()`, then unbind; if the G reports done the iteration
ends, otherwise the (in practice unreachable) blocked-handoff branch parks
the P. -/
def runStep (s : Scheduler) (mIdx now : Nat) (sig : Bool) (m : M) (pid : Nat) :
    SchedResult :=
  match findP s.Ps pid with
  | none => .ok s
  | some p =>
    match p.RunQ with
    | [] => .panicked "index out of range" s
    | gid :: _ =>
      let pop : P → P := fun q => { q with RunQ := q.RunQ.tail, NumG := q.NumG - 1 }
      let s1 : Scheduler := { s with Ps := updP s.Ps pid pop }
      let s2 : Scheduler :=
        { s1 with
            Ms := s1.Ms.set mIdx { m with G := some gid },
            gs := updG s1.gs gid (fun g => { g with Status := "running" }),
            log := s1.log ++ [LogEvent.started gid] }
      match findG s2.gs gid with
      | none => .ok s2
      | some g =>
        match GRun g sig with
        | .panicked msg g2 =>
          .panicked msg { s2 with gs := updG s2.gs gid (fun _ => g2) }
        | .blockedForever g2 =>
          .blockedForever { s2 with gs := updG s2.gs gid (fun _ => g2) }
        | .ok g2 =>
          let m2 : M := { m with G := none }
          let s3 : Scheduler :=
            { s2 with gs := updG s2.gs gid (fun _ => g2),
                      Ms := s2.Ms.set mIdx m2 }
          if g2.Status = "done" then
            .ok { s3 with log := s3.log ++ [LogEvent.finished gid] }
          else
            let m3 : M := { m2 with P := none, parkTime := some now }
            .ok { s3 with availPs := s3.availPs ++ [pid],
                          Ms := s3.Ms.set mIdx m3,
                          log := s3.log ++ [LogEvent.blockedHandoff gid pid] }

/-- The bound phase of `M.scheduleOnce` (src/unnamed/part_003 lines 187-206):
if the local queue is empty, try to steal the head of the global queue into
the local queue; if the global queue is also empty, publish the P to the
central pool, clear the binding, start the cooldown and go idle; otherwise
fall through to the run phase. -/
def runPhase (s : Scheduler) (mIdx now : Nat) (sig : Bool) (m : M) (pid : Nat) :
    SchedResult :=
  match findP s.Ps pid with
  | none => .ok s
  | some p =>
    if p.NumG = 0 then
      match s.globalQ with
      | gid :: rest =>
        let steal : P → P := fun q => { q with RunQ := q.RunQ ++ [gid], NumG := q.NumG + 1 }
        let s1 : Scheduler :=
          { s with globalQ := rest, Ps := updP s.Ps pid steal,
                   log := s.log ++ [LogEvent.stole gid pid] }
        runStep s1 mIdx now sig m pid
      | [] =>
        let m1 : M := { m with P := none, parkTime := some now }
        .ok { s with availPs := s.availPs ++ [pid],
                     Ms := s.Ms.set mIdx m1,
                     log := s.log ++ [LogEvent.parked pid] }
    else runStep s mIdx now sig m pid

/-- The acquisition phase of `M.scheduleOnce` (src/unnamed/part_003 lines
173-184), entered after the cooldown guard with `m.parkTime` already reset to
the zero value: the reset is written back (it persists even when no P is
available), then the non-blocking receive from `availPs` either grabs the
first pooled P or returns leaving the worker idle. -/
def afterGrab (s : Scheduler) (mIdx now : Nat) (sig : Bool) (m : M) : SchedResult :=
  let s1 : Scheduler := { s with Ms := s.Ms.set mIdx m }
  match s1.availPs with
  | [] => .ok s1
  | pid :: rest =>
    let m1 : M := { m with P := some pid }
    let s2 : Scheduler :=
      { s1 with Ms := s1.Ms.set mIdx m1,
                availPs := rest,
                log := s1.log ++ [LogEvent.grabbed pid] }
    runPhase s2 mIdx now sig m1 pid

/-- Models `M.scheduleOnce` (src/unnamed/part_003 lines 165-231) as one whole
scheduling iteration of worker number `mIdx`, taken as a single atomic step
of this coarse model.  `now` is the current time in milliseconds, and `sig`
says whether the external unblock signal is delivered while a blocking G
waits inside `Run`.  When the worker is unbound, the cooldown guard
(line 169: skip the grab while `time.Since(m.parkTime) < 200ms`) runs first;
when it passes, the cooldown marker is reset and a P is grabbed
non-blockingly from the pool. -/
def scheduleOnce (s : Scheduler) (mIdx now : Nat) (sig : Bool) : SchedResult :=
  match s.Ms.get? mIdx with
  | none => .ok s
  | some m =>
    match m.P with
    | some pid => runPhase s mIdx now sig m pid
    | none =>
      match m.parkTime with
      | some t =>
        if now - t < 200 then .ok s
        else afterGrab s mIdx now sig { m with parkTime := none }
      | none => afterGrab s mIdx now sig { m with parkTime := none }

/-- Models `M.run` (src/unnamed/part_003 lines 108-120): repeated
`scheduleOnce` ticks 100 ms apart; the `stop` channel is modelled by the fuel
bound; a panic escaping `scheduleOnce` kills the worker goroutine, and a wait
whose signal never arrives keeps the worker inside `g.Run` forever — in both
cases the loop never reaches another iteration. -/
def mRunLoop : Nat → Scheduler → Nat → Nat → Bool → SchedResult
  | 0, s, _, _, _ => .ok s
  | fuel + 1, s, mIdx, now, sig =>
    match scheduleOnce s mIdx now sig with
    | .ok s2 => mRunLoop fuel s2 mIdx (now + 100) sig
    | r => r

/-- The queue-length bookkeeping invariant of claim C10: every P's recorded
`NumG` equals the actual length of its run queue. -/
def lenInvAll (s : Scheduler) : Prop :=
  ∀ p ∈ s.Ps, p.NumG = p.RunQ.length

instance (s : Scheduler) : Decidable (lenInvAll s) := by
  unfold lenInvAll; infer_instance

/-!
Fine-grained model of the park/grab race, for claim C1.

The coarse `scheduleOnce` above takes a whole iteration as one atomic step,
which is too coarse to settle a claim about the atomicity of the park.  Here
every Go statement is one atomic step.  The source parks with two distinct
statements (src/unnamed/part_003 lines 200-201: first the channel send
`s.availPs <- m.P`, then the assignment `m.P = nil`; the same two statements
appear at lines 225-226), with no lock covering the pair, and it grabs with
two distinct statements as well (lines 178-179: the non-blocking receive
`case p := <-s.availPs:`, which removes the P from the channel buffer into
the local variable `p`, and then the assignment `m.P = p`).  The scenario is
the one named by the spec: one Context (identity 7), worker 0 about to park
it, worker 1 idle and unbound. -/

/-- State of the park/grab scenario: the pool buffer, the binding of the
parking worker (`bound0`), the binding of the racing idle worker (`bound1`),
the racing worker's local variable `p` holding a received Context between
the receive and the binding assignment (`hold1`), and the parking worker's
position in the two-statement park sequence (`pc0 = 0` before the send, `1`
between the send and the clear, `2` after the clear). -/
structure ParkSt where
  pool : List Nat
  bound0 : Option Nat
  bound1 : Option Nat
  hold1 : Option Nat
  pc0 : Nat
deriving DecidableEq, Repr

/-- One atomic step (one Go statement) of the park/grab scenario: `send` is
the parking worker's channel send `s.availPs <- m.P`, `clear` is its
assignment `m.P = nil`, `recv` is the racing worker's non-blocking receive
`case p := <-s.availPs:` (which moves the Context from the channel buffer
into the local variable `p`), and `bindLocal` is its assignment `m.P = p`
(the racing worker only attempts a grab while unbound, lines 167 and 177). -/
inductive ParkStep : ParkSt → ParkSt → Prop
  | send (p : Nat) (pool : List Nat) (b1 h1 : Option Nat) :
      ParkStep ⟨pool, some p, b1, h1, 0⟩ ⟨pool ++ [p], some p, b1, h1, 1⟩
  | clear (pool : List Nat) (b0 b1 h1 : Option Nat) :
      ParkStep ⟨pool, b0, b1, h1, 1⟩ ⟨pool, none, b1, h1, 2⟩
  | recv (p : Nat) (rest : List Nat) (b0 : Option Nat) (pc : Nat) :
      ParkStep ⟨p :: rest, b0, none, none, pc⟩ ⟨rest, b0, none, some p, pc⟩
  | bindLocal (p : Nat) (pool : List Nat) (b0 : Option Nat) (pc : Nat) :
      ParkStep ⟨pool, b0, none, some p, pc⟩ ⟨pool, b0, some p, none, pc⟩

/-- Reachability in the park/grab scenario. -/
def ParkReach : ParkSt → ParkSt → Prop :=
  Relation.ReflTransGen ParkStep

/-- The scenario's initial state: the single Context 7 is bound to the
parking worker, the pool is empty and the racing worker is unbound — a
post-setup state in which the one-location invariant holds. -/
def parkInit : ParkSt := ⟨[], some 7, none, none, 0⟩

/-- The state after the channel send but before the binding is cleared. -/
def parkMid : ParkSt := ⟨[7], some 7, none, none, 1⟩

/-- The state after the racing worker's receive, while the parking worker's
binding is still in place: the Context sits in the racing worker's local
variable. -/
def parkRecv : ParkSt := ⟨[], some 7, none, some 7, 1⟩

/-- The state after the racing worker binds the received Context while the
parking worker's binding is still in place: bound to two workers at once. -/
def parkDouble : ParkSt := ⟨[], some 7, some 7, none, 1⟩

/-- The state after a completed park (send then clear). -/
def parkCleared : ParkSt := ⟨[7], none, none, none, 2⟩

/-- The state after the park completed and the racing worker's receive has
run but its binding assignment has not: the Context is in neither the pool
nor any worker's binding, only in the racing worker's local variable. -/
def parkNeither : ParkSt := ⟨[], none, none, some 7, 2⟩

/-- The Context `p` is present in the pool and simultaneously bound to some
worker. -/
def bothLocations (st : ParkSt) (p : Nat) : Prop :=
  p ∈ st.pool ∧ (st.bound0 = some p ∨ st.bound1 = some p)

/-- The Context `p` is in at least one of the spec's two locations: the pool
or a worker's binding. -/
def someLocation (st : ParkSt) (p : Nat) : Prop :=
  p ∈ st.pool ∨ st.bound0 = some p ∨ st.bound1 = some p

/-- Inductive invariant of the park/grab scenario for Context 7: before the
send the parking worker still holds the binding; from the send onwards the
Context is in the pool, bound to the racing worker, or in flight in the
racing worker's local variable. -/
def parkInv (st : ParkSt) : Prop :=
  (st.pc0 = 0 → st.bound0 = some 7) ∧
  (st.pc0 ≠ 0 → (7 ∈ st.pool ∨ st.bound1 = some 7 ∨ st.hold1 = some 7))

/-!
Concrete states used to instantiate the theorems below.
-/

/-- A runnable, non-blocking G with a well-behaved work routine. -/
def mkNormalG (id : Nat) : G :=
  { ID := id, FuncPanics := false, Status := "runnable",
    hasBlockChan := false, chanClosed := false, funcCalls := 0 }

/-- Empty scheduler with a single empty P (identity 0), used for the
overflow scenario of claim C5. -/
def c5State : Scheduler :=
  { gs := [], Ps := [{ ID := 0, RunQ := [], NumG := 0 }], Ms := [],
    nextGID := 0, globalQ := [], availPs := [], log := [] }

/-- Six submissions (the spec scenario's K+1 with K = 5) to the single empty
P of `c5State`. -/
def c5Result : Scheduler :=
  submitAll c5State 0 [10, 11, 12, 13, 14, 15]

/-- One P holding three runnable non-blocking Gs `a`, `b`, `c` in order, one
worker bound to it: the single-worker no-stealing scenario of claim C6. -/
def c6State (a b c : Nat) : Scheduler :=
  { gs := [mkNormalG a, mkNormalG b, mkNormalG c],
    Ps := [{ ID := 0, RunQ := [a, b, c], NumG := 3 }],
    Ms := [{ ID := 0, P := some 0, G := none, parkTime := none }],
    nextGID := 0, globalQ := [], availPs := [], log := [] }

/-- One worker bound to a P whose queue holds a panicking G (identity 0)
followed by a well-behaved G (identity 1): the scenario of claim C8. -/
def c8State : Scheduler :=
  { gs := [{ ID := 0, FuncPanics := true, Status := "runnable",
             hasBlockChan := false, chanClosed := false, funcCalls := 0 },
           mkNormalG 1],
    Ps := [{ ID := 0, RunQ := [0, 1], NumG := 2 }],
    Ms := [{ ID := 0, P := some 0, G := none, parkTime := none }],
    nextGID := 2, globalQ := [], availPs := [], log := [] }

/-- An unbound worker that parked at time 1000 while a P sits in the pool:
the one-idle-Context, one-idle-Worker scenario of claim C4. -/
def c4State : Scheduler :=
  { gs := [], Ps := [{ ID := 0, RunQ := [], NumG := 0 }],
    Ms := [{ ID := 0, P := none, G := none, parkTime := some 1000 }],
    nextGID := 0, globalQ := [], availPs := [0], log := [] }

/-- A blocking G before any run, used to instantiate the handshake claims. -/
def blockingG : G :=
  { ID := 2, FuncPanics := false, Status := "runnable",
    hasBlockChan := true, chanClosed := false, funcCalls := 0 }

/-- A P holding six Gs, at the overflow threshold boundary. -/
def c5Full : Scheduler :=
  { gs := [], Ps := [{ ID := 0, RunQ := [10, 11, 12, 13, 14, 15], NumG := 6 }],
    Ms := [], nextGID := 0, globalQ := [], availPs := [], log := [] }

/-!
Helper lemmas shared by the claim theorems.
-/

theorem find_updP (ps : List P) (pid : Nat) (f : P → P)
    (hf : ∀ q, (f q).ID = q.ID) :
    findP (updP ps pid f) pid = (findP ps pid).map f := by
  induction ps with
  | nil => rfl
  | cons p ps ih =>
    by_cases h : p.ID = pid
    · simp [findP, updP, List.find?, h, hf]
    · have hb : (p.ID == pid) = false := by simpa using h
      simp only [findP, updP, List.map_cons, List.find?] at *
      rw [if_neg h]
      simp only [hb]
      exact ih

theorem find_updG (gs : List G) (gid : Nat) (f : G → G)
    (hf : ∀ q, (f q).ID = q.ID) :
    findG (updG gs gid f) gid = (findG gs gid).map f := by
  induction gs with
  | nil => rfl
  | cons g gs ih =>
    by_cases h : g.ID = gid
    · simp [findG, updG, List.find?, h, hf]
    · have hb : (g.ID == gid) = false := by simpa using h
      simp only [findG, updG, List.map_cons, List.find?] at *
      rw [if_neg h]
      simp only [hb]
      exact ih

theorem lenInv_updP (ps : List P) (pid : Nat) (f : P → P)
    (hf : ∀ q, q.NumG = q.RunQ.length → (f q).NumG = (f q).RunQ.length)
    (h : ∀ p ∈ ps, p.NumG = p.RunQ.length) :
    ∀ p ∈ updP ps pid f, p.NumG = p.RunQ.length := by
  intro p hp
  rcases List.mem_map.mp hp with ⟨q, hq, rfl⟩
  by_cases hid : q.ID = pid
  · simpa [hid] using hf q (h q hq)
  · simpa [hid] using h q hq

theorem runStep_lenInv (s : Scheduler) (mIdx now : Nat) (sig : Bool) (m : M) (pid : Nat)
    (h : lenInvAll s) : lenInvAll ((runStep s mIdx now sig m pid).state) := by
  simp only [runStep]
  split
  · exact h
  · rename_i p hfp
    split
    · exact h
    · rename_i gid rest hrq
      have hPs : ∀ q ∈ updP s.Ps pid (fun q => { q with RunQ := q.RunQ.tail, NumG := q.NumG - 1 }),
          q.NumG = q.RunQ.length := by
        refine lenInv_updP s.Ps pid _ ?_ h
        intro q hq
        simp only [List.length_tail]
        omega
      split
      · intro q hq; exact hPs q hq
      · rename_i g hfg
        split
        · intro q hq; exact hPs q hq
        · intro q hq; exact hPs q hq
        · rename_i g2 hgr
          split
          · intro q hq; exact hPs q hq
          · intro q hq; exact hPs q hq

theorem runPhase_lenInv (s : Scheduler) (mIdx now : Nat) (sig : Bool) (m : M) (pid : Nat)
    (h : lenInvAll s) : lenInvAll ((runPhase s mIdx now sig m pid).state) := by
  simp only [runPhase]
  split
  · exact h
  · rename_i p hfp
    split
    · split
      · rename_i gid rest hgq
        refine runStep_lenInv _ _ _ _ _ _ ?_
        refine lenInv_updP s.Ps pid _ ?_ h
        intro q hq
        simp [hq]
      · intro q hq; exact h q hq
    · exact runStep_lenInv _ _ _ _ _ _ h

theorem afterGrab_lenInv (s : Scheduler) (mIdx now : Nat) (sig : Bool) (m : M)
    (h : lenInvAll s) : lenInvAll ((afterGrab s mIdx now sig m).state) := by
  simp only [afterGrab]
  split
  · intro q hq; exact h q hq
  · refine runPhase_lenInv _ _ _ _ _ _ ?_
    intro q hq; exact h q hq

theorem scheduleOnce_lenInv (s : Scheduler) (i now : Nat) (sig : Bool)
    (h : lenInvAll s) : lenInvAll ((scheduleOnce s i now sig).state) := by
  simp only [scheduleOnce]
  split
  · exact h
  · rename_i m hm
    split
    · exact runPhase_lenInv _ _ _ _ _ _ h
    · split
      · split
        · exact h
        · exact afterGrab_lenInv _ _ _ _ _ h
      · exact afterGrab_lenInv _ _ _ _ _ h

theorem parkInv_step (st st2 : ParkSt) (hstep : ParkStep st st2)
    (hinv : parkInv st) : parkInv st2 := by
  cases hstep with
  | send p pool b1 h1 =>
    have hp : p = 7 := by
      have h0 := hinv.1 rfl
      simpa using h0
    subst hp
    exact ⟨fun h => by simp at h, fun _ => Or.inl (by simp)⟩
  | clear pool b0 b1 h1 =>
    have h7 := hinv.2 (by simp)
    exact ⟨fun h => by simp at h, fun _ => h7⟩
  | recv p rest b0 pc =>
    rcases Nat.eq_zero_or_pos pc with hpc | hpc
    · subst hpc
      exact ⟨fun _ => hinv.1 rfl, fun h => absurd rfl h⟩
    · have hne : pc ≠ 0 := Nat.pos_iff_ne_zero.mp hpc
      rcases hinv.2 hne with h7 | h7 | h7
      · rcases List.mem_cons.mp h7 with h7 | h7
        · exact ⟨fun h => absurd h hne, fun _ => Or.inr (Or.inr (by simp [h7]))⟩
        · exact ⟨fun h => absurd h hne, fun _ => Or.inl h7⟩
      · simp at h7
      · simp at h7
  | bindLocal p pool b0 pc =>
    rcases Nat.eq_zero_or_pos pc with hpc | hpc
    · subst hpc
      exact ⟨fun _ => hinv.1 rfl, fun h => absurd rfl h⟩
    · have hne : pc ≠ 0 := Nat.pos_iff_ne_zero.mp hpc
      rcases hinv.2 hne with h7 | h7 | h7
      · exact ⟨fun h => absurd h hne, fun _ => Or.inl h7⟩
      · simp at h7
      · have hp : p = 7 := by simpa using h7
        exact ⟨fun h => absurd h hne, fun _ => Or.inr (Or.inl (by simp [hp]))⟩

theorem parkInv_reach (st : ParkSt) (h : ParkReach parkInit st) : parkInv st := by
  induction h with
  | refl => exact ⟨fun _ => rfl, fun h => absurd rfl h⟩
  | tail _ hstep ih => exact parkInv_step _ _ hstep ih

/-!
Claim theorems.
-/

/-- Claim C1, counterexample: the claim says the publish of the Context to
the pool and the clearing of the Worker's binding are a single atomic step,
so that no other actor can observe a Context simultaneously in the pool and
bound to the parking Worker.  In the source the park is two separate
statements: one atomic step (`send`, the statement `s.availPs <- m.P`) leads
from the good pre-park state to a state in which Context 7 is in the pool
and still bound to the parking Worker, and from there the racing Worker's
receive and binding assignment are enabled and yield a state in which the
Context is bound to two Workers at once. -/
theorem C1_counterexample :
    ParkStep parkInit parkMid ∧ bothLocations parkMid 7 ∧
    ParkStep parkMid parkRecv ∧ ParkStep parkRecv parkDouble ∧
    parkDouble.bound0 = some 7 ∧ parkDouble.bound1 = some 7 := by
  refine ⟨?_, ?_, ?_, ?_, rfl, rfl⟩
  · exact ParkStep.send 7 [] none none
  · exact ⟨by simp [parkMid], Or.inl rfl⟩
  · exact ParkStep.recv 7 [] (some 7) 1
  · exact ParkStep.bindLocal 7 [] (some 7) 1

/-- Claim C1, amended: at statement granularity the exactly-one-location
invariant fails in both directions.  The park's publish and clear are two
separate steps: between them the Context is observably both in the pool and
still bound to the parking Worker, and a racing Worker can receive and bind
it there, briefly binding the Context to two Workers.  The grab's receive
and binding assignment are likewise two separate steps: between them the
Context is in neither the pool nor any Worker's binding, held only in the
grabbing Worker's local variable.  What does hold is conservation: in every
reachable state the Context is in the pool, bound to a Worker, or in flight
in the grabbing Worker's local variable. -/
theorem C1_amended (st : ParkSt) (h : ParkReach parkInit st) :
    (someLocation st 7 ∨ st.hold1 = some 7) ∧
    (ParkStep parkInit parkMid ∧ bothLocations parkMid 7) ∧
    (ParkReach parkInit parkNeither ∧ ¬ someLocation parkNeither 7 ∧
      parkNeither.hold1 = some 7) ∧
    (ParkReach parkInit parkDouble ∧ parkDouble.bound0 = some 7 ∧
      parkDouble.bound1 = some 7) := by
  refine ⟨?_, ⟨ParkStep.send 7 [] none none, ⟨by simp [parkMid], Or.inl rfl⟩⟩,
    ⟨?_, by simp [someLocation, parkNeither], rfl⟩, ⟨?_, rfl, rfl⟩⟩
  · have hinv := parkInv_reach st h
    by_cases h0 : st.pc0 = 0
    · exact Or.inl (Or.inr (Or.inl (hinv.1 h0)))
    · rcases hinv.2 h0 with h7 | h7 | h7
      · exact Or.inl (Or.inl h7)
      · exact Or.inl (Or.inr (Or.inr h7))
      · exact Or.inr h7
  · exact Relation.ReflTransGen.head (ParkStep.send 7 [] none none)
      (Relation.ReflTransGen.head (ParkStep.clear [7] (some 7) none none)
        (Relation.ReflTransGen.single (ParkStep.recv 7 [] none 2)))
  · exact Relation.ReflTransGen.head (ParkStep.send 7 [] none none)
      (Relation.ReflTransGen.head (ParkStep.recv 7 [] (some 7) 1)
        (Relation.ReflTransGen.single (ParkStep.bindLocal 7 [] (some 7) 1)))

/-- Witness for C1_amended at the intermediate state of the park. -/
theorem C1_witness :
    (someLocation parkMid 7 ∨ parkMid.hold1 = some 7) ∧
    (ParkStep parkInit parkMid ∧ bothLocations parkMid 7) ∧
    (ParkReach parkInit parkNeither ∧ ¬ someLocation parkNeither 7 ∧
      parkNeither.hold1 = some 7) ∧
    (ParkReach parkInit parkDouble ∧ parkDouble.bound0 = some 7 ∧
      parkDouble.bound1 = some 7) :=
  C1_amended parkMid (Relation.ReflTransGen.single (ParkStep.send 7 [] none none))

/-- Claim C2 (code bug): the claim says a second unblock signal after the
task has resumed (or is Done) is a no-op or a reported error, never a crash.
In the source, `G.Run` closes `blockChan` right after receiving the resume
signal, so for every blocking task that has resumed and completed, a second
`blockChan <- struct{}{}` is a send on a closed channel, which panics and
crashes the program. -/
theorem C2_code_bug (g : G) (h1 : g.hasBlockChan = true) (h2 : g.chanClosed = false)
    (h3 : g.FuncPanics = false) :
    ∃ g2, GRun g true = RunOutcome.ok g2 ∧ g2.Status = "done" ∧
      g2.chanClosed = true ∧ chanSend g2.chanClosed false = SendResult.panicsClosed := by
  refine ⟨{ g with funcCalls := g.funcCalls + 1, Status := "done", chanClosed := true },
    ?_, rfl, rfl, rfl⟩
  simp [GRun, h1, h2, h3]

/-- Witness for C2_code_bug at the concrete blocking G of the demo. -/
theorem C2_witness :
    ∃ g2, GRun blockingG true = RunOutcome.ok g2 ∧ g2.Status = "done" ∧
      g2.chanClosed = true ∧ chanSend g2.chanClosed false = SendResult.panicsClosed :=
  C2_code_bug blockingG rfl rfl rfl

/-- Claim C3 (code bug): the claim says invoking `Run` a second time on an
already-Done task is a no-op with no re-execution of the work routine.  In
the source, `G.Run` has no guard on `Status`: a second `Run` on a completed
non-blocking task invokes `g.Func()` again (the invocation count rises from
one to two), and on a completed blocking task the second `Run` panics on
`close` of the already closed `blockChan`. -/
theorem C3_code_bug (g : G) (hb : g.hasBlockChan = false) (hp : g.FuncPanics = false)
    (gb : G) (hb2 : gb.hasBlockChan = true) (hc2 : gb.chanClosed = false)
    (hp2 : gb.FuncPanics = false) :
    (∃ g1, GRun g true = RunOutcome.ok g1 ∧ g1.funcCalls = g.funcCalls + 1 ∧
       g1.Status = "done" ∧
       ∃ g2, GRun g1 true = RunOutcome.ok g2 ∧ g2.funcCalls = g.funcCalls + 2 ∧
         g2.Status = "done") ∧
    (∃ k1, GRun gb true = RunOutcome.ok k1 ∧
       ∃ k2, GRun k1 true = RunOutcome.panicked "close of closed channel" k2 ∧
         k2.funcCalls = gb.funcCalls + 2) := by
  constructor
  · refine ⟨{ g with funcCalls := g.funcCalls + 1, Status := "done" },
      by simp [GRun, hb, hp], rfl, rfl, ?_⟩
    refine ⟨{ g with funcCalls := g.funcCalls + 2, Status := "done" }, ?_, rfl, rfl⟩
    simp [GRun, hb, hp]
  · refine ⟨{ gb with funcCalls := gb.funcCalls + 1, Status := "done", chanClosed := true },
      by simp [GRun, hb2, hc2, hp2], ?_⟩
    refine ⟨{ gb with funcCalls := gb.funcCalls + 2, Status := "done", chanClosed := true }, ?_, rfl⟩
    simp [GRun, hb2, hp2]

/-- Witness for C3_code_bug at concrete Gs. -/
theorem C3_witness :
    (∃ g1, GRun (mkNormalG 9) true = RunOutcome.ok g1 ∧
       g1.funcCalls = (mkNormalG 9).funcCalls + 1 ∧ g1.Status = "done" ∧
       ∃ g2, GRun g1 true = RunOutcome.ok g2 ∧
         g2.funcCalls = (mkNormalG 9).funcCalls + 2 ∧ g2.Status = "done") ∧
    (∃ k1, GRun blockingG true = RunOutcome.ok k1 ∧
       ∃ k2, GRun k1 true = RunOutcome.panicked "close of closed channel" k2 ∧
         k2.funcCalls = blockingG.funcCalls + 2) :=
  C3_code_bug (mkNormalG 9) rfl rfl blockingG rfl rfl rfl

/-- Claim C4: a Worker that has just parked does not acquire any Context
from the pool on a scheduling iteration inside its 200 ms cooldown window
(the whole iteration leaves the scheduler unchanged), and consequently over
any sequence of iterations all lying inside the window — in particular in
the one-idle-Context one-idle-Worker scenario — the Worker never re-acquires
the Context it just parked. -/
theorem C4_cooldown (s : Scheduler) (i t : Nat) (m : M)
    (hm : s.Ms.get? i = some m) (hP : m.P = none) (ht : m.parkTime = some t) :
    (∀ now sig, now - t < 200 → scheduleOnce s i now sig = SchedResult.ok s) ∧
    (∀ times sig, (∀ u ∈ times, u - t < 200) →
      List.foldl (fun st u => (scheduleOnce st i u sig).state) s times = s) := by
  have h1 : ∀ now sig, now - t < 200 → scheduleOnce s i now sig = SchedResult.ok s := by
    intro now sig hlt
    unfold scheduleOnce
    rw [hm]
    simp only [hP, ht]
    rw [if_pos hlt]
  refine ⟨h1, ?_⟩
  intro times sig hall
  induction times with
  | nil => rfl
  | cons u us ih =>
    have hs : (scheduleOnce s i u sig).state = s := by
      rw [h1 u sig (hall u (by simp))]
      rfl
    simp only [List.foldl_cons, hs]
    exact ih (fun v hv => hall v (by simp [hv]))

/-- Witness for C4_cooldown: the parked Worker of `c4State` stays idle at
time 1100, 100 ms after its park at time 1000. -/
theorem C4_witness : scheduleOnce c4State 0 1100 false = SchedResult.ok c4State :=
  (C4_cooldown c4State 0 1000 { ID := 0, P := none, G := none, parkTime := some 1000 }
    rfl rfl rfl).1 1100 false (by decide)

/-- Claim C5, counterexample: the claim says submitting K+1 tasks to one
empty Context routes exactly the (K+1)th task to the GlobalQueue.  With the
source's threshold K = 5, submitting six tasks to the empty Context routes
all six to the local queue and none to the GlobalQueue, because the
redirect fires only when `NumG` already exceeds 5 at submission time. -/
theorem C5_counterexample :
    c5Result.globalQ = [] ∧
    findP c5Result.Ps 0 = some { ID := 0, RunQ := [10, 11, 12, 13, 14, 15], NumG := 6 } := by
  decide

/-- Claim C5, amended: `Enqueue` appends to the tail of the local queue when
the local length is at most the threshold K = 5 and redirects to the
GlobalQueue when the local length exceeds K; submitting K+2 tasks to one
empty Context routes exactly the (K+2)th task to the GlobalQueue and the
first K+1 tasks to the local queue. -/
theorem C5_amended :
    (∀ (s : Scheduler) (pid gid : Nat) (p : P), findP s.Ps pid = some p →
      p.NumG > overflowThreshold →
      Enqueue s pid gid = { s with globalQ := s.globalQ ++ [gid] }) ∧
    (∀ (s : Scheduler) (pid gid : Nat) (p : P), findP s.Ps pid = some p →
      p.NumG ≤ overflowThreshold →
      (Enqueue s pid gid).globalQ = s.globalQ ∧
      findP (Enqueue s pid gid).Ps pid =
        some { p with RunQ := p.RunQ ++ [gid], NumG := p.NumG + 1 }) ∧
    (∀ a b c d e f g7 : Nat,
      (submitAll c5State 0 [a, b, c, d, e, f, g7]).globalQ = [g7] ∧
      findP (submitAll c5State 0 [a, b, c, d, e, f, g7]).Ps 0 =
        some { ID := 0, RunQ := [a, b, c, d, e, f], NumG := 6 }) := by
  refine ⟨?_, ?_, ?_⟩
  · intro s pid gid p hp hgt
    simp only [Enqueue, hp]
    rw [if_pos hgt]
  · intro s pid gid p hp hle
    simp only [Enqueue, hp]
    rw [if_neg (by omega)]
    refine ⟨rfl, ?_⟩
    rw [show (findP (updP s.Ps pid fun q =>
          { q with RunQ := q.RunQ ++ [gid], NumG := q.NumG + 1 }) pid) =
        (findP s.Ps pid).map (fun q => { q with RunQ := q.RunQ ++ [gid], NumG := q.NumG + 1 })
      from find_updP s.Ps pid _ (fun q => rfl)]
    rw [hp]
    rfl
  · intro a b c d e f g7
    exact ⟨rfl, rfl⟩

/-- Witness for C5_amended: one over-threshold submission redirects to the
GlobalQueue, and one at-threshold submission appends locally. -/
theorem C5_witness :
    Enqueue c5Full 0 99 = { c5Full with globalQ := c5Full.globalQ ++ [99] } ∧
    (Enqueue c5State 0 42).globalQ = c5State.globalQ ∧
    findP (Enqueue c5State 0 42).Ps 0 =
      some { ID := 0, RunQ := ([] : List Nat) ++ [42], NumG := 0 + 1 } :=
  ⟨(C5_amended.1 c5Full 0 99 { ID := 0, RunQ := [10, 11, 12, 13, 14, 15], NumG := 6 }
      rfl (by decide)),
   (C5_amended.2.1 c5State 0 42 { ID := 0, RunQ := [], NumG := 0 } rfl (by decide))⟩

/-- Claim C7: `NewG` allocates task identities under the scheduler lock (one
atomic step here): the returned task carries the next id, is runnable, and
has a block channel exactly when `block` is true; the id is distinct from
every live task's id whenever ids were fresh so far, freshness is preserved,
and a subsequent allocation returns a strictly larger id. -/
theorem C7_newG (s : Scheduler) (f1 b1 f2 b2 : Bool)
    (hfresh : ∀ g ∈ s.gs, g.ID < s.nextGID) :
    ((NewG s f1 b1).1.ID = s.nextGID ∧
     (NewG s f1 b1).1.Status = "runnable" ∧
     (NewG s f1 b1).1.hasBlockChan = b1 ∧
     (∀ g ∈ s.gs, g.ID ≠ (NewG s f1 b1).1.ID)) ∧
    (∀ g ∈ (NewG s f1 b1).2.gs, g.ID < (NewG s f1 b1).2.nextGID) ∧
    ((NewG (NewG s f1 b1).2 f2 b2).1.ID > (NewG s f1 b1).1.ID ∧
     (NewG (NewG s f1 b1).2 f2 b2).1.Status = "runnable" ∧
     (NewG (NewG s f1 b1).2 f2 b2).1.hasBlockChan = b2) := by
  refine ⟨⟨rfl, rfl, rfl, ?_⟩, ?_, ⟨?_, rfl, rfl⟩⟩
  · intro g hg
    exact Nat.ne_of_lt (hfresh g hg)
  · intro g hg
    simp only [NewG, List.mem_append, List.mem_singleton] at hg
    rcases hg with hg | hg
    · exact Nat.lt_succ_of_lt (hfresh g hg)
    · subst hg
      exact Nat.lt_succ_self s.nextGID
  · exact Nat.lt_succ_self s.nextGID

/-- Witness for C7_newG on the empty scheduler. -/
theorem C7_witness :
    ((NewG c5State false false).1.ID = c5State.nextGID ∧
     (NewG c5State false false).1.Status = "runnable" ∧
     (NewG c5State false false).1.hasBlockChan = false ∧
     (∀ g ∈ c5State.gs, g.ID ≠ (NewG c5State false false).1.ID)) ∧
    (∀ g ∈ (NewG c5State false false).2.gs, g.ID < (NewG c5State false false).2.nextGID) ∧
    ((NewG (NewG c5State false false).2 false true).1.ID > (NewG c5State false false).1.ID ∧
     (NewG (NewG c5State false false).2 false true).1.Status = "runnable" ∧
     (NewG (NewG c5State false false).2 false true).1.hasBlockChan = true) :=
  C7_newG c5State false false false true (by decide)

/-- Claim C9 (code bug): the claim says a Worker holding a Blocked task whose
resume signal never arrives waits only a bounded time, then reports a stuck
task and continues.  In the source the wait is the bare receive
`<-g.blockChan` with no `select` and no timeout: when the signal never
arrives, `Run` never returns (the worker is blocked forever), and after
every finite number of ticks the wait is still in the waiting state — no
bound exists after which the Worker is freed. -/
theorem C9_code_bug (g : G) (h1 : g.hasBlockChan = true) (h2 : g.chanClosed = false)
    (h3 : g.FuncPanics = false) :
    (∃ g2, GRun g false = RunOutcome.blockedForever g2) ∧
    (∀ n, waitAfter (fun _ => false) n = WaitState.waiting) := by
  constructor
  · exact ⟨{ g with funcCalls := g.funcCalls + 1 }, by simp [GRun, h1, h2, h3]⟩
  · intro n
    induction n with
    | zero => rfl
    | succ n ih => simp [waitAfter, waitStep, ih]

/-- Witness for C9_code_bug at the concrete blocking G of the demo. -/
theorem C9_witness :
    (∃ g2, GRun blockingG false = RunOutcome.blockedForever g2) ∧
    (∀ n, waitAfter (fun _ => false) n = WaitState.waiting) :=
  C9_code_bug blockingG rfl rfl rfl

/-- Claim C8, counterexample: the claim says a panic in a task's work routine
is caught, recorded per task, and the Worker loop continues unaffected.  In
the scenario `c8State` (a panicking G queued ahead of a well-behaved G), the
worker loop dies on the uncaught panic: the loop result is the panic itself,
the queued second G is still runnable and is never started or finished, and
the panicking G is left mid-run. -/
theorem C8_counterexample :
    (mRunLoop 5 c8State 0 0 false).isOk = false ∧
    mRunLoop 5 c8State 0 0 false =
      SchedResult.panicked "panic in g.Func" ((mRunLoop 5 c8State 0 0 false).state) ∧
    statusOf ((mRunLoop 5 c8State 0 0 false).state) 1 = some "runnable" ∧
    statusOf ((mRunLoop 5 c8State 0 0 false).state) 0 = some "running" ∧
    ((mRunLoop 5 c8State 0 0 false).state).log = [LogEvent.started 0] := by
  decide

/-- Claim C8, amended: a panic raised by a task's work routine is not caught
anywhere in the source (there is no `recover`): whenever the head task of a
bound Worker's queue has a panicking routine, the scheduling iteration ends
in that panic — the task is started but never finishes — and the Worker loop
terminates with the same panic instead of continuing. -/
theorem C8_amended (s : Scheduler) (i now : Nat) (sig : Bool) (m : M) (pid : Nat)
    (p : P) (gid : Nat) (g : G)
    (hm : s.Ms.get? i = some m) (hP : m.P = some pid) (hp : findP s.Ps pid = some p)
    (hn : p.NumG ≠ 0) (hq : p.RunQ.head? = some gid) (hg : findG s.gs gid = some g)
    (hpanic : g.FuncPanics = true) :
    ∃ s2, scheduleOnce s i now sig = SchedResult.panicked "panic in g.Func" s2 ∧
      s2.log = s.log ++ [LogEvent.started gid] ∧
      ∀ k, mRunLoop (k + 1) s i now sig = SchedResult.panicked "panic in g.Func" s2 := by
  have hsched : ∃ s2, scheduleOnce s i now sig = SchedResult.panicked "panic in g.Func" s2 ∧
      s2.log = s.log ++ [LogEvent.started gid] := by
    cases hrq : p.RunQ with
    | nil => rw [hrq] at hq; exact absurd hq (by simp)
    | cons x xs =>
      have hx : x = gid := by
        rw [hrq] at hq
        simpa using hq
      rw [hx] at hrq
      simp only [scheduleOnce, hm, hP, runPhase, hp]
      rw [if_neg hn]
      simp only [runStep, hp, hrq]
      have hfind : findG (updG s.gs gid fun g0 => { g0 with Status := "running" }) gid =
          some { g with Status := "running" } := by
        rw [find_updG s.gs gid (fun g0 => { g0 with Status := "running" }) (fun q => rfl), hg]
        rfl
      have hgrun : GRun { g with Status := "running" } sig =
          RunOutcome.panicked "panic in g.Func"
            { g with Status := "running", funcCalls := g.funcCalls + 1 } := by
        simp [GRun, hpanic]
      simp only [hfind, hgrun]
      exact ⟨_, rfl, rfl⟩
  rcases hsched with ⟨s2, hrun, hlog⟩
  refine ⟨s2, hrun, hlog, ?_⟩
  intro k
  simp [mRunLoop, hrun]

/-- Witness for C8_amended at the concrete scenario `c8State`. -/
theorem C8_witness :
    ∃ s2, scheduleOnce c8State 0 0 false = SchedResult.panicked "panic in g.Func" s2 ∧
      s2.log = c8State.log ++ [LogEvent.started 0] ∧
      ∀ k, mRunLoop (k + 1) c8State 0 0 false =
        SchedResult.panicked "panic in g.Func" s2 :=
  C8_amended c8State 0 0 false { ID := 0, P := some 0, G := none, parkTime := none }
    0 { ID := 0, RunQ := [0, 1], NumG := 2 } 0
    { ID := 0, FuncPanics := true, Status := "runnable", hasBlockChan := false,
      chanClosed := false, funcCalls := 0 }
    rfl rfl rfl (by decide) rfl rfl rfl

/-- Claim C6: for every three distinct tasks `a`, `b`, `c` enqueued in that
order to the same Context, with a single Worker draining that Context and no
work stealing (empty global queue), the three scheduling iterations complete
normally and the tasks are started and finished in exactly the order
`a`, `b`, `c` (`Enqueue` appends at the tail, the Worker always pops the
head), leaving all three Done and the queue empty. -/
theorem C6_fifo (a b c : Nat) (hab : a ≠ b) (hac : a ≠ c) (hbc : b ≠ c) :
    (mRunLoop 3 (c6State a b c) 0 0 false).isOk = true ∧
    ((mRunLoop 3 (c6State a b c) 0 0 false).state).log =
      [LogEvent.started a, LogEvent.finished a, LogEvent.started b,
       LogEvent.finished b, LogEvent.started c, LogEvent.finished c] ∧
    statusOf ((mRunLoop 3 (c6State a b c) 0 0 false).state) a = some "done" ∧
    statusOf ((mRunLoop 3 (c6State a b c) 0 0 false).state) b = some "done" ∧
    statusOf ((mRunLoop 3 (c6State a b c) 0 0 false).state) c = some "done" ∧
    findP ((mRunLoop 3 (c6State a b c) 0 0 false).state).Ps 0 =
      some { ID := 0, RunQ := [], NumG := 0 } := by
  have e1 : (a == b) = false := by simp [hab]
  have e2 : (a == c) = false := by simp [hac]
  have e3 : (b == c) = false := by simp [hbc]
  have e4 : (b == a) = false := by simp [hab.symm]
  have e5 : (c == a) = false := by simp [hac.symm]
  have e6 : (c == b) = false := by simp [hbc.symm]
  simp [mRunLoop, scheduleOnce, runPhase, runStep, afterGrab, c6State, mkNormalG,
        findP, findG, updP, updG, GRun, statusOf, List.find?,
        hab, hac, hbc, hab.symm, hac.symm, hbc.symm, e1, e2, e3, e4, e5, e6,
        SchedResult.isOk, SchedResult.state]

/-- Witness for C6_fifo at the concrete tasks 0, 1, 2. -/
theorem C6_witness :
    (mRunLoop 3 (c6State 0 1 2) 0 0 false).isOk = true ∧
    ((mRunLoop 3 (c6State 0 1 2) 0 0 false).state).log =
      [LogEvent.started 0, LogEvent.finished 0, LogEvent.started 1,
       LogEvent.finished 1, LogEvent.started 2, LogEvent.finished 2] ∧
    statusOf ((mRunLoop 3 (c6State 0 1 2) 0 0 false).state) 0 = some "done" ∧
    statusOf ((mRunLoop 3 (c6State 0 1 2) 0 0 false).state) 1 = some "done" ∧
    statusOf ((mRunLoop 3 (c6State 0 1 2) 0 0 false).state) 2 = some "done" ∧
    findP ((mRunLoop 3 (c6State 0 1 2) 0 0 false).state).Ps 0 =
      some { ID := 0, RunQ := [], NumG := 0 } :=
  C6_fifo 0 1 2 (by decide) (by decide) (by decide)

/-- Claim C10: the recorded queue length `NumG` of every Context equals the
actual length of its run queue: the equality holds for the P created by
`AddP` (and is preserved for the others), and it is preserved by `Enqueue`
(both the local append and the global redirect) and by a whole scheduling
iteration `scheduleOnce`, which contains the Worker's head pop and the steal
that moves one task from the GlobalQueue into the local queue. -/
theorem C10_lenInv :
    (∀ s id, lenInvAll s → lenInvAll (AddP s id)) ∧
    (∀ s pid gid, lenInvAll s → lenInvAll (Enqueue s pid gid)) ∧
    (∀ s i now sig, lenInvAll s → lenInvAll ((scheduleOnce s i now sig).state)) := by
  refine ⟨?_, ?_, fun s i now sig h => scheduleOnce_lenInv s i now sig h⟩
  · intro s id h q hq
    simp only [AddP, List.mem_append, List.mem_singleton] at hq
    rcases hq with hq | hq
    · exact h q hq
    · subst hq; rfl
  · intro s pid gid h
    simp only [Enqueue]
    split
    · exact h
    · rename_i p hfp
      split
      · intro q hq; exact h q hq
      · refine lenInv_updP s.Ps pid _ ?_ h
        intro q hq
        simp [hq]

/-- Witness for C10_lenInv at concrete states. -/
theorem C10_witness :
    lenInvAll (AddP c5State 3) ∧
    lenInvAll (Enqueue c5State 0 7) ∧
    lenInvAll ((scheduleOnce (c6State 0 1 2) 0 0 false).state) :=
  ⟨C10_lenInv.1 c5State 3 (by decide),
   C10_lenInv.2.1 c5State 0 7 (by decide),
   C10_lenInv.2.2 (c6State 0 1 2) 0 0 false (by decide)⟩

end ToySched
